import Mathlib

/-!
# Verification of the sage-mcp Plugin Discovery & Adaptive Query Resolution Engine

Shallow embedding of the core of the `waggle-sensor/sage-mcp` repository:
the plugin metadata registry and relevance-scored search
(`sage_mcp_server/plugin_metadata.py`), the natural-language query
translator (`sage_mcp_server/plugin_query_service.py`), the pattern
synthesis and query fallback ladders (`sage_mcp.py`,
`search_measurements` and `query_job_data`), the data service result
limiting (`sage_mcp_server/data_service.py`), and the result formatter
(`sage_mcp_server/plugin_query_service.py`, `format_plugin_data`).

Python strings are modelled as `List Char`; Python dicts (used for the
plugin registry and for time-series field filters) are modelled as
association lists with Python-dict insertion semantics (updating an
existing key keeps its position, a new key is appended).  The external
time-series store (`sage_data_client.query`) is modelled as an oracle
`FieldFilter → List Obs` supplied as a parameter.
-/

/-- Python strings are modelled as lists of characters. -/
abbrev Str := List Char

namespace SageMcp

/-- Characters Python's `str.strip()` / `\s` treat as whitespace (ASCII range). -/
def isPySpace (c : Char) : Bool :=
  c = ' ' || c = '\t' || c = '\n' || c = '\r' || c = '\x0b' || c = '\x0c'

/-- ASCII word characters, Python's `\w` (for the inputs of interest). -/
def isWordChar (c : Char) : Bool :=
  c.isAlpha || c.isDigit || c = '_'

/-- Python's `str.lower()` (ASCII case folding). -/
def toLowerStr (s : Str) : Str := s.map Char.toLower

/-- Python's `sep.join(xs)`. -/
def joinSep (sep : Str) : List Str → Str
  | [] => []
  | [x] => x
  | x :: y :: xs => x ++ sep ++ joinSep sep (y :: xs)

/-- Python's `s.split(sep)` on a single-character separator: splits at every
occurrence, keeping empty fragments; `"".split(sep) = [""]`. -/
def pySplitCh (sep : Char) : Str → List Str
  | [] => [[]]
  | c :: cs =>
    if c = sep then [] :: pySplitCh sep cs
    else
      match pySplitCh sep cs with
      | [] => [[c]]
      | p :: ps => (c :: p) :: ps

/-- Python's `s.strip()`: drop leading and trailing whitespace. -/
def pyStrip (s : Str) : Str :=
  ((s.dropWhile isPySpace).reverse.dropWhile isPySpace).reverse

/-- Maximal runs of characters satisfying `keep`; used for Python's
whitespace `split()` (`keep = ¬ isPySpace`) and `re.findall(r"\w+", s)`
(`keep = isWordChar`). -/
def runsAux (keep : Char → Bool) (cur : Str) : Str → List Str
  | [] => if cur.isEmpty then [] else [cur.reverse]
  | c :: cs =>
    if keep c then runsAux keep (c :: cur) cs
    else if cur.isEmpty then runsAux keep [] cs
    else cur.reverse :: runsAux keep [] cs

/-- Python's `s.split()` with no argument: words separated by whitespace runs. -/
def pyWords (s : Str) : List Str := runsAux (fun c => ¬ isPySpace c) [] s

/-- Python's `re.findall(r"\w+", s)`: maximal runs of word characters. -/
def wordRuns (s : Str) : List Str := runsAux isWordChar [] s

/-- Python dict assignment `d[k] = v`: updating an existing key keeps its
position, a fresh key is appended at the end. -/
def dictInsert (k : Str) (v : α) : List (Str × α) → List (Str × α)
  | [] => [(k, v)]
  | (k', v') :: rest =>
    if k' = k then (k, v) :: rest else (k', v') :: dictInsert k v rest

/-- Python dict lookup `d.get(k)` on an association list. -/
def dictLookup (k : Str) : List (Str × α) → Option α
  | [] => none
  | (k', v) :: rest => if k' = k then some v else dictLookup k rest

/-- Python dict deletion `d.pop(k)` (the removal part). -/
def dictRemove (k : Str) : List (Str × α) → List (Str × α)
  | [] => []
  | (k', v) :: rest =>
    if k' = k then rest else (k', v) :: dictRemove k rest

/-- Python truthiness test for an optional list of strings
(`None` and `[]` are falsy). -/
def truthyList : Option (List Str) → Bool
  | none => false
  | some l => !l.isEmpty

/-- Insert `x` into a list sorted by descending `key`, before the first
element whose key is `≤ key x`.  Used via `foldr`, this yields the stable
descending sort performed by Python's `list.sort(key=..., reverse=True)`
and by `DataFrame.sort_values(..., ascending=False)` (in the pandas case
the sort kind is unspecified; no property proved below depends on the
order among equal keys there). -/
def insertDescBy [LinearOrder β] (key : α → β) (x : α) : List α → List α
  | [] => [x]
  | y :: ys =>
    if key y ≤ key x then x :: y :: ys else y :: insertDescBy key x ys

/-- Stable sort by descending `key`. -/
def sortDescBy [LinearOrder β] (key : α → β) (l : List α) : List α :=
  l.foldr (insertDescBy key) []

/-! ## Plugin metadata registry (`sage_mcp_server/plugin_metadata.py`) -/

/-- The fields of `PluginMetadata` used by search and the registry.
`science` is `science_description_content` (the fetched long-form
document text); `metadataVals` is the list of stringified values of the
free-form `metadata` dict, in iteration order (`str(v)` applied). -/
structure PluginMetadata where
  id : Str
  name : Str
  description : Str
  keywords : Str
  science : Str
  metadataVals : List Str
deriving DecidableEq, Repr

/-- `PluginMetadata.get_search_text`:
`" ".join(filter(None, [name, description, keywords or "", science_description_content,
" ".join(str(v) for v in metadata.values() if v)]))`. -/
def get_search_text (p : PluginMetadata) : Str :=
  joinSep [' ']
    (([p.name, p.description, p.keywords, p.science,
       joinSep [' '] (p.metadataVals.filter (fun v => !v.isEmpty))]).filter
      (fun v => !v.isEmpty))

/-- The hardcoded category keyword table of `PluginRegistry.search_plugins`
(dict iteration order = insertion order). -/
def category_keywords : List (Str × List Str) :=
  [ ("camera".toList,
      ["camera".toList, "image".toList, "video".toList, "ptz".toList,
       "pan".toList, "tilt".toList, "zoom".toList]),
    ("audio".toList,
      ["audio".toList, "sound".toList, "microphone".toList, "bird".toList,
       "noise".toList]),
    ("detection".toList,
      ["detect".toList, "yolo".toList, "object".toList,
       "recognition".toList, "ai".toList, "ml".toList]),
    ("environmental".toList,
      ["temperature".toList, "humidity".toList, "pressure".toList,
       "weather".toList]),
    ("movement".toList,
      ["motion".toList, "tracking".toList, "movement".toList]) ]

/-- The per-plugin relevance score computed inside
`PluginRegistry.search_plugins`, translated statement by statement
(`score` starts at 0 and is incremented by each matching component). -/
def search_score (query : Str) (p : PluginMetadata) : Nat :=
  let query_lower := toLowerStr query
  let query_words := pyWords query_lower
  let search_text := toLowerStr (get_search_text p)
  let s1 := 0 + (if query_lower = toLowerStr p.name then 100 else 0)
  let s2 := s1 + (if query_lower <:+: toLowerStr p.name then 50 else 0)
  let s3 := s2 + (if query_lower <:+: toLowerStr p.description then 30 else 0)
  let s4 := s3 + (if p.keywords ≠ [] ∧ query_lower <:+: toLowerStr p.keywords
                  then 40 else 0)
  let s5 := s4 + (if p.science ≠ [] ∧ query_lower <:+: toLowerStr p.science
                  then 25 else 0)
  let s6 := query_words.foldl
    (fun sc word => if word <:+: search_text then sc + 10 else sc) s5
  category_keywords.foldl
    (fun sc ckws =>
      if (∃ kw ∈ ckws.2, kw <:+: query_lower) ∧
         (∃ kw ∈ ckws.2, kw <:+: search_text)
      then sc + 20 else sc) s6

/-- `PluginRegistry.search_plugins`: score every plugin in the registry
(values in insertion order), keep those with score > 0, stable-sort by
descending score, return the first `max_results` plugins. -/
def search_plugins (query : Str) (max_results : Nat)
    (plugins : List PluginMetadata) : List PluginMetadata :=
  let scored_plugins := plugins.filterMap
    (fun p => let score := search_score query p
              if 0 < score then some (p, score) else none)
  ((sortDescBy (fun x => x.2) scored_plugins).take max_results).map Prod.fst

/-- An upstream catalog record as consumed by `PluginRegistry.refresh_cache`.
`malformed` models a record whose parsing raises (the
`except Exception ... continue` path); the remaining fields are the
parsed values after the `.get(...)`-with-default normalization. -/
structure RawPlugin where
  id : Str
  name : Str
  description : Str
  keywords : Str
  science : Str
  metadataVals : List Str
  malformed : Bool
deriving DecidableEq, Repr

/-- Parsing one record inside `refresh_cache`: a malformed record is
skipped, otherwise a `PluginMetadata` is built. -/
def parseRaw (r : RawPlugin) : Option PluginMetadata :=
  if r.malformed then none
  else some ⟨r.id, r.name, r.description, r.keywords, r.science, r.metadataVals⟩

/-- The registry store: `self.plugins`, a Python dict keyed by plugin id. -/
abbrev Store := List (Str × PluginMetadata)

/-- `PluginRegistry.refresh_cache`.  `fetched = none` models a failed
top-level catalog fetch (non-200 status or an exception): the existing
store is left untouched.  On success the records are parsed one at a
time and each valid record with a non-empty id is assigned into the
existing `self.plugins` dict (`self.plugins[plugin.id] = plugin`); the
dict is never cleared or rebuilt. -/
def refresh_cache (store : Store) (fetched : Option (List RawPlugin)) : Store :=
  match fetched with
  | none => store
  | some raws =>
    raws.foldl
      (fun st raw =>
        match parseRaw raw with
        | none => st
        | some p => if p.id.isEmpty then st else dictInsert p.id p st)
      store

/-! ## Natural-language query translator
(`sage_mcp_server/plugin_query_service.py`, `parse_natural_query`) -/

/-- One attempt of the time-window pattern
`(\d+)\s*(hour|hr|minute|min)s?(?:\s+ago)?` at the start of `s`, which
must begin with a digit: the greedy digit run, the greedy whitespace run,
then the first alternative of `hour|hr|minute|min` that matches.  The
trailing `s?` and `(?:\s+ago)?` are optional and capture nothing, so
they cannot make the attempt fail and do not affect the captured groups
`(digits, unit)`. -/
def timeMatchHere (s : Str) : Option (Str × Str) :=
  let ds := s.takeWhile Char.isDigit
  let rest := (s.dropWhile Char.isDigit).dropWhile isPySpace
  match (["hour".toList, "hr".toList, "minute".toList, "min".toList]).find?
      (fun u => u <+: rest) with
  | some u => some (ds, u)
  | none => none

/-- The first (leftmost) match of
`re.findall(r"(\d+)\s*(hour|hr|minute|min)s?(?:\s+ago)?", s)`:
scan left to right; a match can only start at a digit. -/
def firstTimeMatch : Str → Option (Str × Str)
  | [] => none
  | c :: cs =>
    if c.isDigit then
      match timeMatchHere (c :: cs) with
      | some g => some g
      | none => firstTimeMatch cs
    else firstTimeMatch cs

/-- The structured parameters produced by `parse_natural_query`
(`nodes` is always set to `None` and is omitted). -/
structure QueryParams where
  plugin_pattern : Option Str
  categories : List Str
  time_range : Str
deriving DecidableEq, Repr

/-- Substring membership test `any(term in query for term in terms)`. -/
def anyTermIn (terms : List Str) (query : Str) : Prop :=
  ∃ t ∈ terms, t <:+: query

instance (terms : List Str) (query : Str) : Decidable (anyTermIn terms query) := by
  unfold anyTermIn; infer_instance

/-- `PluginQueryService.parse_natural_query`: lower-case the input, run
the `if/elif` keyword-trigger chain for the plugin pattern and category,
then extract the time window (defaulting to `-1h`). -/
def parse_natural_query (query : Str) : QueryParams :=
  let q := toLowerStr query
  let (pp, cats) :=
    if anyTermIn ["ptz".toList, "pan".toList, "tilt".toList, "zoom".toList] q then
      if anyTermIn ["yolo".toList, "detect".toList, "recognition".toList] q then
        (some ".*ptzapp-yolo.*".toList, ["camera".toList])
      else
        (some ".*ptz.*".toList, ["camera".toList])
    else if anyTermIn ["image".toList, "camera".toList, "photo".toList,
                       "picture".toList] q then
      if anyTermIn ["yolo".toList, "detect".toList, "recognition".toList] q then
        (some ".*yolo.*".toList, ["camera".toList])
      else
        (some ".*imagesampler.*|.*camera.*".toList, ["camera".toList])
    else if anyTermIn ["temperature".toList, "humidity".toList, "pressure".toList,
                       "weather".toList, "environmental".toList] q then
      (none, ["environmental".toList])
    else if anyTermIn ["audio".toList, "sound".toList, "microphone".toList,
                       "recording".toList] q then
      (none, ["audio".toList])
    else if anyTermIn ["cloud".toList, "rain".toList, "precipitation".toList,
                       "sky".toList] q then
      (none, ["rain".toList])
    else (none, [])
  let tr : Option Str :=
    match firstTimeMatch q with
    | some (amount, unit) =>
      if "hour".toList <+: unit then some (['-'] ++ amount ++ ['h'])
      else if "min".toList <+: unit then some (['-'] ++ amount ++ ['m'])
      else none
    | none => none
  ⟨pp, cats, tr.getD "-1h".toList⟩

/-! ## Pattern synthesis and query fallback ladders (`sage_mcp.py`) -/

/-- The wildcard marker `.*`. -/
def wild : Str := ".*".toList

/-- Wrap one pattern fragment (`search_measurements`):
prefix `.*` unless the fragment already starts with it, then append `.*`
unless the (possibly prefixed) fragment already ends with it. -/
def wrapFrag (part : Str) : Str :=
  let p1 := if wild <+: part then part else wild ++ part
  if wild <:+ p1 then p1 else p1 ++ wild

/-- The pattern synthesis of `search_measurements`: an OR pattern is
split on `|`, each part stripped and wrapped; a single pattern is
wrapped directly. -/
def synthesize (measurement_pattern : Str) : Str :=
  if '|' ∈ measurement_pattern then
    joinSep ['|']
      ((pySplitCh '|' measurement_pattern).map (fun part => wrapFrag (pyStrip part)))
  else
    wrapFrag measurement_pattern

/-- A field filter: the dict passed as `filter` to `sage_data_client.query`. -/
abbrev FieldFilter := List (Str × Str)

/-- An observation row of the time-series result table.  `value` is the
observation value after `pd.to_numeric(..., errors="coerce")`: `some q`
for a value that coerces to the number `q`, `none` for one that does not
(pandas `NaN`). -/
structure Obs where
  ts : Int
  value : Option ℚ
deriving DecidableEq, Repr

/-- The vsn-defaulting step of `SageDataService.query_data` (both the copy
in `sage_mcp.py` and the one in `sage_mcp_server/data_service.py`):
`if "vsn" not in filter_params: filter_params["vsn"] = "*"`. -/
def normalizeVsn (filter_params : FieldFilter) : FieldFilter :=
  if (dictLookup "vsn".toList filter_params).isNone then
    dictInsert "vsn".toList "*".toList filter_params
  else filter_params

/-- One `data_service.query_data` call as seen by the fallback ladders:
the filter dict is normalized in place (the caller's dict afterwards
contains the `vsn` entry) and the external store is queried.  The
`start`/`end` window and error handling do not affect the ladder
structure and are not modelled; the store is the `oracle` parameter. -/
def query_data_call (oracle : FieldFilter → List Obs) (filter_params : FieldFilter) :
    FieldFilter × List Obs :=
  let fp := normalizeVsn filter_params
  (fp, oracle fp)

/-- The outcome of running a query fallback ladder: the field filters
passed to the store, in order, and the final result table. -/
structure LadderRun where
  queries : List FieldFilter
  rows : List Obs
deriving DecidableEq, Repr

/-- The query-ladder block in the body of the `search_measurements` tool
(`sage_mcp.py`, lines 1179–1190): rung 1 queries the `plugin` field with
the synthesized pattern; if the result is empty, rung 2 re-issues the
same pattern against the `name` field (`name_filter =
filter_params.copy(); name_filter["name"] = name_filter.pop("plugin")`);
if that is also empty the tool returns a "no measurements" message.

This block is dead code in the program: the statement just before it
(`start, end = SageDataService._parse_time_range(validated_time)`, line
1178) raises `AttributeError`, so execution never reaches rung 1 — see
`search_measurements_tool`, which models the whole tool body including
that failing lookup.  The time window the missing helper would have
produced is irrelevant to the ladder structure and is abstracted away
here. -/
def search_measurements_plan (oracle : FieldFilter → List Obs)
    (measurement_pattern : Str) (node : Option Str) : LadderRun :=
  let filter_params : FieldFilter := [("plugin".toList, synthesize measurement_pattern)]
  let filter_params :=
    match node with
    | some n => dictInsert "vsn".toList n filter_params
    | none => filter_params
  let (fp1, df1) := query_data_call oracle filter_params
  if df1.isEmpty then
    let name_filter :=
      dictInsert "name".toList
        ((dictLookup "plugin".toList fp1).getD [])
        (dictRemove "plugin".toList fp1)
    let (fp2, df2) := query_data_call oracle name_filter
    ⟨[fp1, fp2], df2⟩
  else
    ⟨[fp1], df1⟩

/-- The job-name → plugin-pattern table of `query_job_data` (`sage_mcp.py`),
in dict insertion order. -/
def job_to_plugin_patterns : List (Str × List Str) :=
  [ ("audio".toList, [".*audio.*".toList, ".*sage-audio.*".toList]),
    ("air-quality".toList, [".*air-quality.*".toList, ".*airquality.*".toList]),
    ("cloud".toList, [".*cloud.*".toList]),
    ("image".toList, [".*image.*".toList, ".*sampler.*".toList]),
    ("camera".toList, [".*camera.*".toList, ".*imagesampler.*".toList]),
    ("sound".toList, [".*sound.*".toList, ".*audio.*".toList]),
    ("weather".toList, [".*weather.*".toList, ".*wxt.*".toList]),
    ("rain".toList, [".*rain.*".toList, ".*raingauge.*".toList]),
    ("temperature".toList, [".*temperature.*".toList, ".*temp.*".toList]),
    ("motion".toList, [".*motion.*".toList]),
    ("ptz".toList, [".*ptz.*".toList]),
    ("yolo".toList, [".*yolo.*".toList]),
    ("bird".toList, [".*bird.*".toList, ".*avian.*".toList]),
    ("mobotix".toList, [".*mobotix.*".toList]) ]

/-- Order-preserving deduplication (`if pattern not in unique_patterns:
unique_patterns.append(pattern)`). -/
def dedupKeepOrder (l : List Str) : List Str :=
  l.foldl (fun acc p => if p ∈ acc then acc else acc ++ [p]) []

/-- The plugin filter value built at the top of `query_job_data`: the
wrapped job name (unless it already starts with `.*`) plus the table
patterns for each keyword contained in the lowered job name,
deduplicated; if that list is empty, the original `|`-splitting /
wrapping fallback. -/
def jobPluginValue (job_name : Str) : Str :=
  let plugin_patterns : List Str :=
    (if wild <+: job_name then [] else [wild ++ job_name ++ wild]) ++
    (job_to_plugin_patterns.foldl
      (fun acc kp => if kp.1 <:+: toLowerStr job_name then acc ++ kp.2 else acc) [])
  if plugin_patterns.isEmpty then
    if '|' ∈ job_name then
      joinSep ['|'] (((pySplitCh '|' job_name).map pyStrip).filter (fun p => !p.isEmpty))
    else
      wrapFrag job_name
  else
    joinSep ['|'] (dedupKeepOrder plugin_patterns)

/-- The keyword-broadening patterns of `query_job_data`: the words of the
lowered job name (`re.findall(r"\w+", ...)`) of length > 2, each wrapped
as `.*word.*`. -/
def broaderPatterns (job_name : Str) : List Str :=
  ((wordRuns (toLowerStr job_name)).filter (fun w => 2 < w.length)).map
    (fun w => wild ++ w ++ wild)

/-- The query-ladder block in the body of the `query_job_data` tool
(`sage_mcp.py`, lines 1669–1689): rung 1 queries the `plugin` field with
`jobPluginValue`; if empty, the broader word patterns are ORed into the
`plugin` field of the same dict and the query re-issued (skipped when
there is no word of length > 2); if still empty the tool returns a
"no data found" message.

Like the `search_measurements` ladder, this block is dead code: the
`SageDataService._parse_time_range` call at line 1668 raises
`AttributeError` first — see `query_job_data_tool` for the whole tool
body including that failing lookup. -/
def query_job_data_plan (oracle : FieldFilter → List Obs)
    (job_name : Str) (node : Option Str) (data_type : Str) : LadderRun :=
  let filter_params : FieldFilter := [("plugin".toList, jobPluginValue job_name)]
  let filter_params :=
    match node with
    | some n => dictInsert "vsn".toList n filter_params
    | none => filter_params
  let filter_params :=
    if data_type ≠ "upload".toList then
      dictInsert "name".toList data_type filter_params
    else filter_params
  let (fp1, df1) := query_data_call oracle filter_params
  if df1.isEmpty then
    let broader := broaderPatterns job_name
    if broader.isEmpty then
      ⟨[fp1], df1⟩
    else
      let fp2pre := dictInsert "plugin".toList (joinSep ['|'] broader) fp1
      let (fp2, df2) := query_data_call oracle fp2pre
      ⟨[fp1, fp2], df2⟩
  else
    ⟨[fp1], df1⟩

/-- The caller-visible outcome of one query tool of `sage_mcp.py`:
an `"Error ...: ..."` string from the `except` handler, the
"no measurements" / "no data found" message, or a data summary. -/
inductive ToolResult where
  | error
  | noData
  | data (rows : List Obs)
deriving DecidableEq, Repr

/-- A whole tool invocation: the field filters passed to the store, in
order, and the outcome returned to the caller. -/
structure ToolRun where
  queries : List FieldFilter
  result : ToolResult
deriving DecidableEq, Repr

/-- The attributes of the `SageDataService` class defined at
`sage_mcp.py` line 588 — the class that shadows the imported one and on
which both tools look up `_parse_time_range`.  Its body consists of
exactly these seven static methods. -/
def sageDataService_attrs : List Str :=
  ["query_data".toList, "query_plugin_data".toList, "query_image_data".toList,
   "query_cloud_data".toList, "query_node_data".toList,
   "query_environmental_data".toList, "query_job_data".toList]

/-- The body of the `search_measurements` tool (`sage_mcp.py`,
lines 1140–1226), for inputs passing the `TimeRange`/`NodeID`
validation: the filter is built, then
`start, end = SageDataService._parse_time_range(validated_time)` looks
up `_parse_time_range` on the class — an attribute it does not have, so
`AttributeError` is raised, caught by the surrounding
`except Exception`, and an `"Error searching measurements: ..."` string
is returned before any query is issued.  Only if the attribute existed
would the fallback ladder (`search_measurements_plan`) run and its
result be formatted. -/
def search_measurements_tool (oracle : FieldFilter → List Obs)
    (measurement_pattern : Str) (node : Option Str) : ToolRun :=
  if ("_parse_time_range").toList ∈ sageDataService_attrs then
    let plan := search_measurements_plan oracle measurement_pattern node
    if plan.rows.isEmpty then ⟨plan.queries, ToolResult.noData⟩
    else ⟨plan.queries, ToolResult.data plan.rows⟩
  else
    ⟨[], ToolResult.error⟩

/-- The body of the `query_job_data` tool (`sage_mcp.py`,
lines 1577–1740), for inputs passing validation: the plugin patterns
are built, then the `SageDataService._parse_time_range(validated_time)`
lookup at line 1668 raises `AttributeError`, caught by the handler,
and an `"Error querying job data: ..."` string is returned before any
query is issued.  Only if the attribute existed would the fallback
ladder (`query_job_data_plan`) run. -/
def query_job_data_tool (oracle : FieldFilter → List Obs)
    (job_name : Str) (node : Option Str) (data_type : Str) : ToolRun :=
  if ("_parse_time_range").toList ∈ sageDataService_attrs then
    let plan := query_job_data_plan oracle job_name node data_type
    if plan.rows.isEmpty then ⟨plan.queries, ToolResult.noData⟩
    else ⟨plan.queries, ToolResult.data plan.rows⟩
  else
    ⟨[], ToolResult.error⟩

/-- The filter construction of `PluginQueryService.query_plugin_data`
(`sage_mcp_server/plugin_query_service.py`):
`{"plugin": f".*{plugin.name}.*"}` plus `vsn = "|".join(nodes)` when the
caller passes a non-empty node list, `vsn = "*"` otherwise. -/
def query_plugin_data_filter (pluginName : Str) (nodes : Option (List Str)) :
    FieldFilter :=
  let filter_params : FieldFilter := [("plugin".toList, wild ++ pluginName ++ wild)]
  if truthyList nodes then
    dictInsert "vsn".toList (joinSep ['|'] (nodes.getD [])) filter_params
  else
    dictInsert "vsn".toList "*".toList filter_params

/-! ## Data service result limiting (`sage_mcp_server/data_service.py`) -/

/-- The result-limiting step of `SageDataService.query_data`: after the
store returns `df`, `if len(df) > 1000: df =
df.sort_values("timestamp", ascending=False).head(1000)`. -/
def query_data_limit (df : List Obs) : List Obs :=
  if 1000 < df.length then (sortDescBy Obs.ts df).take 1000 else df

/-! ## Result formatter
(`sage_mcp_server/plugin_query_service.py`, `format_plugin_data`) -/

/-- Minimum of a rational list (`Series.min()` with NaN already removed;
the `[]` case is never reached by the formatter). -/
def listMin : List ℚ → ℚ
  | [] => 0
  | x :: xs => xs.foldl min x

/-- Maximum of a rational list (`Series.max()`). -/
def listMax : List ℚ → ℚ
  | [] => 0
  | x :: xs => xs.foldl max x

/-- The numerically relevant content of the text built by
`format_plugin_data`: whether the empty-result message was returned, the
reported record count, and the value statistics `(min, max, mean)` when
they were rendered. -/
structure PluginDataSummary where
  isEmpty : Bool
  totalRecords : Nat
  stats : Option (ℚ × ℚ × ℚ)
deriving DecidableEq, Repr

/-- `PluginQueryService.format_plugin_data`, restricted to the record
count and value statistics (plugin name, time range, node list and
description lines are pure text and carry no numeric content).  The
`value` column is `df["value"]` after `pd.to_numeric(..., errors=
"coerce")` (see `Obs.value`); pandas `min`/`max`/`mean` skip NaN, so the
aggregates range over the values that coerced.  The rendering rounds to
two decimals; the exact rationals are kept here.  The statistics block
sits in a `try/except`, and every branch returns a value: no exception
escapes the formatter. -/
def format_plugin_data (df : List Obs) : PluginDataSummary :=
  if df.isEmpty then ⟨true, 0, none⟩
  else
    let numeric_values := df.map Obs.value
    if numeric_values.all Option.isNone then ⟨false, df.length, none⟩
    else
      let vals := numeric_values.filterMap id
      ⟨false, df.length,
        some (listMin vals, listMax vals, vals.sum / (vals.length : ℚ))⟩

/-! ## Spec-side definitions and concrete inputs used by the claims -/

/-- The searchable text as described by the specification's scorer
section (§4.2): the concatenation of the four descriptor fields `name`,
`description`, `keywords` and `longDescriptionContent` (the spec's data
model has no free-form metadata map).  Joined with spaces, empty fields
skipped, case-normalized. -/
def claim_searchable_text (p : PluginMetadata) : Str :=
  toLowerStr (joinSep [' ']
    (([p.name, p.description, p.keywords, p.science]).filter (fun v => !v.isEmpty)))

/-- The relevance score exactly as claim C3 states it: the additive
bonus table over the query and the four descriptor fields. -/
def claim_score (query : Str) (p : PluginMetadata) : Nat :=
  let ql := toLowerStr query
  let text := claim_searchable_text p
  (if ql = toLowerStr p.name then 100 else 0) +
  (if ql <:+: toLowerStr p.name then 50 else 0) +
  (if ql <:+: toLowerStr p.description then 30 else 0) +
  (if ql <:+: toLowerStr p.keywords then 40 else 0) +
  (if ql <:+: toLowerStr p.science then 25 else 0) +
  10 * ((pyWords ql).countP (fun w => decide (w <:+: text))) +
  20 * (category_keywords.countP (fun ckws =>
    decide ((∃ kw ∈ ckws.2, kw <:+: ql) ∧ (∃ kw ∈ ckws.2, kw <:+: text))))

/-- The relevance score as claim C3 must be amended to hold of the code:
token and category matching run over the descriptor's full searchable
text (which also contains the stringified metadata values), and the
keywords / long-description substring bonuses additionally require the
field to be non-empty (Python truthiness guard, observable only for the
empty query). -/
def amended_score (query : Str) (p : PluginMetadata) : Nat :=
  let ql := toLowerStr query
  let text := toLowerStr (get_search_text p)
  (if ql = toLowerStr p.name then 100 else 0) +
  (if ql <:+: toLowerStr p.name then 50 else 0) +
  (if ql <:+: toLowerStr p.description then 30 else 0) +
  (if p.keywords ≠ [] ∧ ql <:+: toLowerStr p.keywords then 40 else 0) +
  (if p.science ≠ [] ∧ ql <:+: toLowerStr p.science then 25 else 0) +
  10 * ((pyWords ql).countP (fun w => decide (w <:+: text))) +
  20 * (category_keywords.countP (fun ckws =>
    decide ((∃ kw ∈ ckws.2, kw <:+: ql) ∧ (∃ kw ∈ ckws.2, kw <:+: text))))

/-- A descriptor whose only occurrence of "zebra" is in a metadata
value: `search_score` gives it the +10 token bonus, the claim's formula
gives it 0. -/
def zebraPlugin : PluginMetadata :=
  ⟨"z1".toList, "n".toList, [], [], [], ["zebra".toList]⟩

/-- A pre-refresh store holding one descriptor under id "old". -/
def oldPlugin : PluginMetadata :=
  ⟨"old".toList, "old-name".toList, [], [], [], []⟩

/-- A fetched catalog record with id "new" (well-formed). -/
def newRaw : RawPlugin :=
  ⟨"new".toList, "new-name".toList, [], [], [], [], false⟩

/-- The descriptor `newRaw` parses to. -/
def newPlugin : PluginMetadata :=
  ⟨"new".toList, "new-name".toList, [], [], [], []⟩

/-- A time-series contract stub that always returns an empty table. -/
def emptyOracle : FieldFilter → List Obs := fun _ => []

/-- A small result table with a value that does not coerce to a number
(second row). -/
def mixedRows : List Obs :=
  [⟨0, some 3⟩, ⟨1, none⟩, ⟨2, some 1⟩]

/-- A small result table (3 rows, under the 1000 limit). -/
def smallRows : List Obs :=
  [⟨5, some 1⟩, ⟨7, none⟩, ⟨6, some 2⟩]

/-- A 1001-row result table with strictly decreasing timestamps. -/
def bigRows : List Obs :=
  (List.range 1001).map (fun (i : ℕ) => ⟨(1000 : Int) - (i : Int), none⟩)

/-- A catalog of one plugin that scores 0 against the query "qqq". -/
def dullPlugin : PluginMetadata :=
  ⟨"d1".toList, "wxt-sensor".toList, "reads barometric data".toList,
   [], [], []⟩

/-! ## Association-list (Python dict) lemmas -/

theorem dictLookup_dictInsert (i k : Str) (v : α) (l : List (Str × α)) :
    dictLookup i (dictInsert k v l) = if k = i then some v else dictLookup i l := by
  induction l with
  | nil => simp [dictInsert, dictLookup]
  | cons hd tl ih =>
    obtain ⟨k', v'⟩ := hd
    by_cases hk : k' = k
    · subst hk
      simp only [dictInsert, if_pos rfl, dictLookup]
      by_cases hi : k' = i <;> simp [hi]
    · simp only [dictInsert, if_neg hk, dictLookup]
      by_cases hi : k' = i
      · subst hi
        have hki : ¬ k = k' := fun h => hk h.symm
        simp [if_neg hki]
      · simp [hi, ih]

/-- The per-record step of `refresh_cache`. -/
def refreshStep (st : Store) (raw : RawPlugin) : Store :=
  match parseRaw raw with
  | none => st
  | some p => if p.id.isEmpty then st else dictInsert p.id p st

theorem refresh_cache_eq_foldl (store : Store) (raws : List RawPlugin) :
    refresh_cache store (some raws) = raws.foldl refreshStep store := rfl

theorem refreshStep_lookup (st : Store) (raw : RawPlugin) (i : Str) :
    dictLookup i (refreshStep st raw) =
      (dictLookup i (refreshStep [] raw)).or (dictLookup i st) := by
  unfold refreshStep
  cases hp : parseRaw raw with
  | none => simp [dictLookup]
  | some p =>
    by_cases hid : p.id.isEmpty = true
    · simp [hid, dictLookup]
    · simp only [Bool.not_eq_true] at hid
      simp only [hid, Bool.false_eq_true, if_false]
      rw [dictLookup_dictInsert, dictLookup_dictInsert]
      by_cases h : p.id = i <;> simp [h, dictLookup]

theorem foldl_refreshStep_lookup (raws : List RawPlugin) :
    ∀ (st : Store) (i : Str),
      dictLookup i (raws.foldl refreshStep st) =
        (dictLookup i (raws.foldl refreshStep [])).or (dictLookup i st) := by
  induction raws with
  | nil => intro st i; simp [dictLookup]
  | cons raw raws ih =>
    intro st i
    simp only [List.foldl_cons]
    rw [ih (refreshStep st raw) i, ih (refreshStep [] raw) i,
      refreshStep_lookup st raw i, Option.or_assoc]

/-! ## C2: catalog refresh -/

/-- C2 counterexample: after a successful fetch that returns only the
record with id "new", the store still contains the pre-refresh
descriptor "old" — descriptors absent from the fetched list are not
discarded, and the new map is not a replacement: `refresh_cache`
assigns into the existing dict. -/
theorem refresh_cache_keeps_stale_entry :
    refresh_cache [(("old").toList, oldPlugin)] (some [newRaw]) =
      [(("old").toList, oldPlugin), (("new").toList, newPlugin)] ∧
    dictLookup ("old").toList
      (refresh_cache [(("old").toList, oldPlugin)] (some [newRaw])) =
      some oldPlugin := by
  constructor <;> rfl

/-- C2 amended: a successful refresh merges, rather than replaces: each
valid fetched descriptor with a non-empty id is assigned into the
existing store (last occurrence of an id wins), every pre-refresh
descriptor whose id is not among the fetched ones is kept, and a failed
top-level fetch leaves the store untouched.  The merge semantics is
expressed per id: the refreshed store's binding is the one produced by
refreshing an empty store, falling back to the old binding. -/
theorem refresh_cache_merges (store : Store) (raws : List RawPlugin) (i : Str) :
    dictLookup i (refresh_cache store (some raws)) =
      (dictLookup i (refresh_cache [] (some raws))).or (dictLookup i store) ∧
    refresh_cache store none = store := by
  refine ⟨?_, rfl⟩
  rw [refresh_cache_eq_foldl, refresh_cache_eq_foldl]
  exact foldl_refreshStep_lookup raws store i

/-! ## C4: audio category inference -/

/-- C4 counterexample: the trigger rules form an `if/elif` chain, so
categories never accumulate: the text "camera audio" contains the audio
token "audio", yet the resulting categories are exactly `["camera"]` —
the audio category is absent. -/
theorem parse_natural_query_audio_shadowed :
    (parse_natural_query ("camera audio").toList).categories = [("camera").toList] ∧
    ("audio").toList ∉ (parse_natural_query ("camera audio").toList).categories := by
  constructor <;> decide

/-- C4 amended: the audio category is inferred only when an audio token
(audio, sound, microphone, recording) occurs in the lowered text and no
token of an earlier rule does (ptz/pan/tilt/zoom, image/camera/photo/
picture, temperature/humidity/pressure/weather/environmental); in that
case the categories are exactly `[audio]`. -/
theorem parse_natural_query_audio (text : Str)
    (haud : anyTermIn [("audio").toList, ("sound").toList, ("microphone").toList,
      ("recording").toList] (toLowerStr text))
    (hptz : ¬ anyTermIn [("ptz").toList, ("pan").toList, ("tilt").toList,
      ("zoom").toList] (toLowerStr text))
    (himg : ¬ anyTermIn [("image").toList, ("camera").toList, ("photo").toList,
      ("picture").toList] (toLowerStr text))
    (henv : ¬ anyTermIn [("temperature").toList, ("humidity").toList,
      ("pressure").toList, ("weather").toList, ("environmental").toList]
      (toLowerStr text)) :
    (parse_natural_query text).categories = [("audio").toList] := by
  simp only [parse_natural_query, if_neg hptz, if_neg himg, if_neg henv, if_pos haud]

/-- C4 witness: "audio recording" triggers no earlier rule and yields
exactly the audio category. -/
theorem parse_natural_query_audio_witness :
    (parse_natural_query ("audio recording").toList).categories = [("audio").toList] :=
  parse_natural_query_audio ("audio recording").toList
    (by decide) (by decide) (by decide) (by decide)

/-! ## C7: time-window extraction -/

/-- C7: the time-window scan demonstrated at two inputs.  The claimed
behaviour holds for "hour(s)" and "min(ute)(s)" phrases (second
conjunct, the concrete scenario `-2h`).  But for "hr(s)" phrases the
scan finds the match — third conjunct: the first match of
`(\d+)\s*(hour|hr|minute|min)s?(?:\s+ago)?` is `("2", "hr")` — yet the
conversion tests only `unit.startswith("hour")` and
`unit.startswith("min")`, both false for `"hr"`, so the window silently
falls back to the default `-1h` (first conjunct) instead of `-2h` as
the claim (and the regex's own unit list) intends. -/
theorem parse_natural_query_time_range :
    (parse_natural_query ("show data from the last 2 hrs ago").toList).time_range
      = ("-1h").toList ∧
    (parse_natural_query ("show cloud cover data from the last 2 hours").toList).time_range
      = ("-2h").toList ∧
    firstTimeMatch (toLowerStr ("show data from the last 2 hrs ago").toList)
      = some (("2").toList, ("hr").toList) :=
  ⟨by decide, by decide, by decide⟩

/-! ## C8: vsn defaulting -/

/-- C8: every filter reaching the time-series query through the core's
query paths carries a `vsn` entry: `SageDataService.query_data` inserts
the match-all sentinel `"*"` whenever the caller's filter has no `vsn`
key, and `PluginQueryService.query_plugin_data` sets `vsn` to `"*"`
whenever the caller passes no (or an empty) node list. -/
theorem vsn_defaults_to_wildcard (fp : FieldFilter) (pname : Str)
    (nodes : Option (List Str)) :
    (dictLookup ("vsn").toList (normalizeVsn fp)).isSome = true ∧
    (dictLookup ("vsn").toList fp = none →
      dictLookup ("vsn").toList (normalizeVsn fp) = some (("*").toList)) ∧
    (dictLookup ("vsn").toList (query_plugin_data_filter pname nodes)).isSome = true ∧
    (truthyList nodes = false →
      dictLookup ("vsn").toList (query_plugin_data_filter pname nodes)
        = some (("*").toList)) := by
  have hn : dictLookup ("vsn").toList (normalizeVsn fp) =
      some ((dictLookup ("vsn").toList fp).getD (("*").toList)) := by
    unfold normalizeVsn
    cases h : dictLookup ("vsn").toList fp with
    | none => simp [dictLookup_dictInsert]
    | some v =>
      simp only [Option.isNone_some, Bool.false_eq_true, if_false, Option.getD_some]
      exact h
  have hq : ∀ v : Str,
      dictLookup ("vsn").toList
        (dictInsert ("vsn").toList v
          [(("plugin").toList, wild ++ pname ++ wild)]) = some v := by
    intro v
    rw [dictLookup_dictInsert]
    simp
  refine ⟨?_, ?_, ?_, ?_⟩
  · rw [hn]; rfl
  · intro h
    rw [hn, h]
    rfl
  · unfold query_plugin_data_filter
    by_cases h : truthyList nodes = true
    · simp only [h, if_true, hq, Option.isSome_some]
    · simp only [Bool.not_eq_true] at h
      simp only [h, Bool.false_eq_true, if_false, hq, Option.isSome_some]
  · intro h
    unfold query_plugin_data_filter
    simp only [h, Bool.false_eq_true, if_false, hq]

/-- C8 witness: a filter constraining only the measurement name, and a
plugin query with no node list, both end up with `vsn = "*"`. -/
theorem vsn_defaults_to_wildcard_witness :
    dictLookup ("vsn").toList
      (normalizeVsn [(("name").toList, ("env.temperature").toList)])
      = some (("*").toList) ∧
    dictLookup ("vsn").toList
      (query_plugin_data_filter ("raingauge").toList none)
      = some (("*").toList) :=
  ⟨(vsn_defaults_to_wildcard [(("name").toList, ("env.temperature").toList)]
      ("raingauge").toList none).2.1 (by decide),
   (vsn_defaults_to_wildcard [(("name").toList, ("env.temperature").toList)]
      ("raingauge").toList none).2.2.2 (by decide)⟩

/-! ## Stable descending sort lemmas -/

theorem insertDescBy_perm [LinearOrder β] (key : α → β) (x : α) (l : List α) :
    List.Perm (insertDescBy key x l) (x :: l) := by
  induction l with
  | nil => rfl
  | cons y ys ih =>
    unfold insertDescBy
    by_cases h : key y ≤ key x
    · simp [h]
    · simp only [h, if_false]
      exact (ih.cons y).trans (List.Perm.swap x y ys)

theorem sortDescBy_perm [LinearOrder β] (key : α → β) (l : List α) :
    List.Perm (sortDescBy key l) l := by
  induction l with
  | nil => rfl
  | cons x xs ih =>
    exact (insertDescBy_perm key x (sortDescBy key xs)).trans (ih.cons x)

theorem insertDescBy_pairwise [LinearOrder β] (key : α → β) (x : α) (l : List α)
    (h : l.Pairwise (fun a b => key b ≤ key a)) :
    (insertDescBy key x l).Pairwise (fun a b => key b ≤ key a) := by
  induction l with
  | nil => simp [insertDescBy]
  | cons y ys ih =>
    rw [List.pairwise_cons] at h
    obtain ⟨hy, hys⟩ := h
    unfold insertDescBy
    by_cases hxy : key y ≤ key x
    · simp only [hxy, if_true]
      refine List.Pairwise.cons ?_ (List.Pairwise.cons hy hys)
      intro z hz
      rcases List.mem_cons.mp hz with rfl | hz
      · exact hxy
      · exact (hy z hz).trans hxy
    · simp only [hxy, if_false]
      refine List.Pairwise.cons ?_ (ih hys)
      intro z hz
      have hz' := (insertDescBy_perm key x ys).mem_iff.mp hz
      rcases List.mem_cons.mp hz' with rfl | hz'
      · exact (lt_of_not_le hxy).le
      · exact hy z hz'

theorem sortDescBy_pairwise [LinearOrder β] (key : α → β) (l : List α) :
    (sortDescBy key l).Pairwise (fun a b => key b ≤ key a) := by
  induction l with
  | nil => simp [sortDescBy]
  | cons x xs ih => exact insertDescBy_pairwise key x (sortDescBy key xs) ih

/-- Stability of the sort, expressed through key-level filtering: the
elements with any single key value keep their relative order. -/
theorem insertDescBy_filter_key [LinearOrder β] (key : α → β) (x : α) (l : List α)
    (s : β) :
    (insertDescBy key x l).filter (fun a => decide (key a = s)) =
      if key x = s then x :: l.filter (fun a => decide (key a = s))
      else l.filter (fun a => decide (key a = s)) := by
  induction l with
  | nil => by_cases h : key x = s <;> simp [insertDescBy, h]
  | cons y ys ih =>
    unfold insertDescBy
    by_cases hxy : key y ≤ key x
    · rw [if_pos hxy]
      by_cases hx : key x = s <;> simp [List.filter_cons, hx]
    · rw [if_neg hxy]
      have hlt : key x < key y := lt_of_not_le hxy
      by_cases hx : key x = s
      · have hy : ¬ key y = s := by
          intro hys
          rw [hx] at hlt
          rw [hys] at hlt
          exact lt_irrefl s hlt
        rw [List.filter_cons, ih]
        simp [hx, hy, List.filter_cons]
      · rw [List.filter_cons, ih]
        by_cases hy : key y = s <;> simp [hx, hy]

theorem sortDescBy_filter_key [LinearOrder β] (key : α → β) (l : List α) (s : β) :
    (sortDescBy key l).filter (fun a => decide (key a = s)) =
      l.filter (fun a => decide (key a = s)) := by
  induction l with
  | nil => rfl
  | cons x xs ih =>
    show (insertDescBy key x (sortDescBy key xs)).filter _ = _
    rw [insertDescBy_filter_key, List.filter_cons, ih]
    by_cases hx : key x = s <;> simp [hx]

/-! ## C10: result limiting -/

/-- C10: the data service returns at most 1000 rows: the result length is
`min (input length) 1000`; a result of at most 1000 rows is passed
through unchanged; and when the store returns more, the returned rows
together with the dropped rows are a permutation of the input and every
dropped row's timestamp is at most every kept row's timestamp (the 1000
most recent are kept). -/
theorem query_data_limit_keeps_most_recent (df : List Obs) :
    (query_data_limit df).length = min df.length 1000 ∧
    (df.length ≤ 1000 → query_data_limit df = df) ∧
    (1000 < df.length →
      df.Perm (query_data_limit df ++ (sortDescBy Obs.ts df).drop 1000) ∧
      ∀ x ∈ query_data_limit df, ∀ y ∈ (sortDescBy Obs.ts df).drop 1000,
        y.ts ≤ x.ts) := by
  refine ⟨?_, ?_, ?_⟩
  · unfold query_data_limit
    by_cases h : 1000 < df.length
    · simp only [h, if_true, List.length_take,
        (sortDescBy_perm Obs.ts df).length_eq]
      omega
    · simp only [h, if_false]
      omega
  · intro h
    unfold query_data_limit
    rw [if_neg (by omega)]
  · intro h
    have hsplit : (sortDescBy Obs.ts df).take 1000 ++ (sortDescBy Obs.ts df).drop 1000
        = sortDescBy Obs.ts df := List.take_append_drop 1000 (sortDescBy Obs.ts df)
    have hql : query_data_limit df = (sortDescBy Obs.ts df).take 1000 := by
      unfold query_data_limit
      rw [if_pos h]
    constructor
    · rw [hql, hsplit]
      exact (sortDescBy_perm Obs.ts df).symm
    · intro x hx y hy
      have hpw := sortDescBy_pairwise Obs.ts df
      rw [← hsplit, List.pairwise_append] at hpw
      exact hpw.2.2 x (hql ▸ hx) y hy

/-- C10 witness: a 3-row table passes through unchanged; a 1001-row
table is cut to exactly 1000 rows. -/
theorem query_data_limit_witness :
    query_data_limit smallRows = smallRows ∧
    (query_data_limit bigRows).length = 1000 := by
  constructor
  · exact (query_data_limit_keeps_most_recent smallRows).2.1 (by decide)
  · have hlen : bigRows.length = 1001 := by
      unfold bigRows
      rw [List.length_map, List.length_range]
    rw [(query_data_limit_keeps_most_recent bigRows).1, hlen]
    omega

/-! ## Fold-based minimum / maximum lemmas -/

theorem foldl_min_le_init [LinearOrder γ] :
    ∀ (xs : List γ) (a : γ), xs.foldl min a ≤ a := by
  intro xs
  induction xs with
  | nil => intro a; simp
  | cons x xs ih =>
    intro a
    simp only [List.foldl_cons]
    exact (ih (min a x)).trans (min_le_left a x)

theorem foldl_min_le_mem [LinearOrder γ] :
    ∀ (xs : List γ) (a v : γ), v ∈ xs → xs.foldl min a ≤ v := by
  intro xs
  induction xs with
  | nil => intro a v hv; cases hv
  | cons x xs ih =>
    intro a v hv
    simp only [List.foldl_cons]
    rcases List.mem_cons.mp hv with rfl | hv
    · exact (foldl_min_le_init xs (min a v)).trans (min_le_right a v)
    · exact ih (min a x) v hv

theorem foldl_min_mem [LinearOrder γ] :
    ∀ (xs : List γ) (a : γ), xs.foldl min a = a ∨ xs.foldl min a ∈ xs := by
  intro xs
  induction xs with
  | nil => intro a; left; rfl
  | cons x xs ih =>
    intro a
    simp only [List.foldl_cons]
    rcases ih (min a x) with h | h
    · rcases min_choice a x with hm | hm
      · left; rw [h, hm]
      · right; rw [h, hm]; exact List.mem_cons_self x xs
    · right; exact List.mem_cons_of_mem x h

theorem foldl_max_init_le [LinearOrder γ] :
    ∀ (xs : List γ) (a : γ), a ≤ xs.foldl max a := by
  intro xs
  induction xs with
  | nil => intro a; simp
  | cons x xs ih =>
    intro a
    simp only [List.foldl_cons]
    exact (le_max_left a x).trans (ih (max a x))

theorem foldl_max_mem_le [LinearOrder γ] :
    ∀ (xs : List γ) (a v : γ), v ∈ xs → v ≤ xs.foldl max a := by
  intro xs
  induction xs with
  | nil => intro a v hv; cases hv
  | cons x xs ih =>
    intro a v hv
    simp only [List.foldl_cons]
    rcases List.mem_cons.mp hv with rfl | hv
    · exact (le_max_right a v).trans (foldl_max_init_le xs (max a v))
    · exact ih (max a x) v hv

theorem foldl_max_mem [LinearOrder γ] :
    ∀ (xs : List γ) (a : γ), xs.foldl max a = a ∨ xs.foldl max a ∈ xs := by
  intro xs
  induction xs with
  | nil => intro a; left; rfl
  | cons x xs ih =>
    intro a
    simp only [List.foldl_cons]
    rcases ih (max a x) with h | h
    · rcases max_choice a x with hm | hm
      · left; rw [h, hm]
      · right; rw [h, hm]; exact List.mem_cons_self x xs
    · right; exact List.mem_cons_of_mem x h

theorem listMin_spec (l : List ℚ) (h : l ≠ []) :
    listMin l ∈ l ∧ ∀ v ∈ l, listMin l ≤ v := by
  cases l with
  | nil => exact absurd rfl h
  | cons x xs =>
    constructor
    · rcases foldl_min_mem xs x with h' | h'
      · rw [listMin, h']; exact List.mem_cons_self x xs
      · rw [listMin]; exact List.mem_cons_of_mem x h'
    · intro v hv
      rcases List.mem_cons.mp hv with rfl | hv
      · exact foldl_min_le_init xs v
      · exact foldl_min_le_mem xs x v hv

theorem listMax_spec (l : List ℚ) (h : l ≠ []) :
    listMax l ∈ l ∧ ∀ v ∈ l, v ≤ listMax l := by
  cases l with
  | nil => exact absurd rfl h
  | cons x xs =>
    constructor
    · rcases foldl_max_mem xs x with h' | h'
      · rw [listMax, h']; exact List.mem_cons_self x xs
      · rw [listMax]; exact List.mem_cons_of_mem x h'
    · intro v hv
      rcases List.mem_cons.mp hv with rfl | hv
      · exact foldl_max_init_le xs v
      · exact foldl_max_mem_le xs x v hv

/-! ## C9: formatter statistics -/

theorem map_value_filterMap (df : List Obs) :
    (df.map Obs.value).filterMap id = df.filterMap Obs.value := by
  rw [List.filterMap_map]
  rfl

theorem all_isNone_iff_filterMap_nil (df : List Obs) :
    (df.map Obs.value).all Option.isNone = true ↔ df.filterMap Obs.value = [] := by
  rw [List.all_eq_true, List.filterMap_eq_nil_iff]
  constructor
  · intro h a ha
    have := h (Obs.value a) (List.mem_map_of_mem Obs.value ha)
    exact Option.isNone_iff_eq_none.mp this
  · intro h o ho
    obtain ⟨a, ha, rfl⟩ := List.mem_map.mp ho
    exact Option.isNone_iff_eq_none.mpr (h a ha)

/-- C9: for a non-empty result table with a value column, the formatter
reports the full row count, and renders min/max/mean statistics computed
over exactly the values that coerce to a number: rows whose values do
not coerce are excluded from the aggregates (when no value coerces, no
statistics are rendered) but still counted in `totalRecords`.  The
formatter is a total function — no input makes it raise. -/
theorem format_plugin_data_stats (df : List Obs) (h : df ≠ []) :
    (format_plugin_data df).isEmpty = false ∧
    (format_plugin_data df).totalRecords = df.length ∧
    (df.filterMap Obs.value = [] → (format_plugin_data df).stats = none) ∧
    (df.filterMap Obs.value ≠ [] →
      ∃ m M, (format_plugin_data df).stats =
          some (m, M,
            (df.filterMap Obs.value).sum / ((df.filterMap Obs.value).length : ℚ)) ∧
        m ∈ df.filterMap Obs.value ∧ M ∈ df.filterMap Obs.value ∧
        ∀ v ∈ df.filterMap Obs.value, m ≤ v ∧ v ≤ M) := by
  have hne : df.isEmpty = false := by
    cases df with
    | nil => exact absurd rfl h
    | cons x xs => rfl
  unfold format_plugin_data
  rw [hne]
  simp only [Bool.false_eq_true, if_false]
  by_cases hall : (df.map Obs.value).all Option.isNone = true
  · have hnil := (all_isNone_iff_filterMap_nil df).mp hall
    rw [if_pos hall]
    exact ⟨rfl, rfl, fun _ => rfl, fun hcontra => absurd hnil hcontra⟩
  · have hnotnil : df.filterMap Obs.value ≠ [] := by
      intro hcontra
      exact hall ((all_isNone_iff_filterMap_nil df).mpr hcontra)
    rw [if_neg hall]
    refine ⟨rfl, rfl, fun hcontra => absurd hcontra hnotnil, fun _ => ?_⟩
    refine ⟨listMin ((df.map Obs.value).filterMap id),
      listMax ((df.map Obs.value).filterMap id), ?_, ?_, ?_, ?_⟩
    · rw [map_value_filterMap]
    · rw [map_value_filterMap] at *
      exact (listMin_spec _ hnotnil).1
    · rw [map_value_filterMap] at *
      exact (listMax_spec _ hnotnil).1
    · rw [map_value_filterMap] at *
      intro v hv
      exact ⟨(listMin_spec _ hnotnil).2 v hv, (listMax_spec _ hnotnil).2 v hv⟩

/-- C9 witness: a 3-row table whose middle value does not coerce still
reports 3 records. -/
theorem format_plugin_data_stats_witness :
    (format_plugin_data mixedRows).totalRecords = 3 :=
  (format_plugin_data_stats mixedRows (by decide)).2.1

/-! ## C3: relevance scoring -/

theorem foldl_if_add (p : α → Prop) [DecidablePred p] (k : Nat) :
    ∀ (l : List α) (acc : Nat),
      l.foldl (fun sc x => if p x then sc + k else sc) acc
        = acc + k * l.countP (fun x => decide (p x)) := by
  intro l
  induction l with
  | nil => intro acc; simp
  | cons x xs ih =>
    intro acc
    simp only [List.foldl_cons, List.countP_cons, ih]
    by_cases hx : p x
    · simp [hx]
      ring
    · simp [hx]

/-- C3 counterexample: for the query "zebra" and a descriptor whose only
occurrence of "zebra" is a metadata value, the code's score is 10 (the
token loop searches `get_search_text`, which includes the stringified
metadata values) while the claim's formula — token matching over the
concatenation of name, description, keywords and long-description
content only — gives 0. -/
theorem search_score_ne_claim_score :
    search_score ("zebra").toList zebraPlugin = 10 ∧
    claim_score ("zebra").toList zebraPlugin = 0 :=
  ⟨by decide, by decide⟩

/-- C3 amended: the score equals the claim's additive bonus table with
two corrections forced by the code: token and category matching run
over the descriptor's full searchable text (which also includes the
stringified metadata values), and the keywords / long-description
substring bonuses additionally require a non-empty field. -/
theorem search_score_eq_amended (query : Str) (p : PluginMetadata) :
    search_score query p = amended_score query p := by
  unfold search_score amended_score
  rw [foldl_if_add, foldl_if_add]
  ring

/-! ## C5: search contract -/

/-- The scored list built by the `search_plugins` loop. -/
def scoredOf (query : Str) (plugins : List PluginMetadata) :
    List (PluginMetadata × Nat) :=
  plugins.filterMap
    (fun p => let score := search_score query p
              if 0 < score then some (p, score) else none)

theorem search_plugins_eq (query : Str) (max_results : Nat)
    (plugins : List PluginMetadata) :
    search_plugins query max_results plugins =
      ((sortDescBy (fun x => x.2) (scoredOf query plugins)).take max_results).map
        Prod.fst := rfl

theorem mem_scoredOf (query : Str) (plugins : List PluginMetadata)
    (x : PluginMetadata × Nat) (hx : x ∈ scoredOf query plugins) :
    x.1 ∈ plugins ∧ x.2 = search_score query x.1 ∧ 0 < x.2 := by
  obtain ⟨a, ha, hfa⟩ := List.mem_filterMap.mp hx
  by_cases hp : 0 < search_score query a
  · simp only [if_pos hp] at hfa
    obtain rfl := Option.some.inj hfa
    exact ⟨ha, rfl, hp⟩
  · simp only [if_neg hp] at hfa
    cases hfa

theorem scoredOf_mem_of_pos (query : Str) (plugins : List PluginMetadata)
    (p : PluginMetadata) (hp : p ∈ plugins) (hs : 0 < search_score query p) :
    (p, search_score query p) ∈ scoredOf query plugins := by
  refine List.mem_filterMap.mpr ⟨p, hp, ?_⟩
  simp only [if_pos hs]

theorem scoredOf_length (query : Str) (plugins : List PluginMetadata) :
    (scoredOf query plugins).length =
      plugins.countP (fun p => decide (0 < search_score query p)) := by
  induction plugins with
  | nil => rfl
  | cons p ps ih =>
    simp only [scoredOf, List.filterMap_cons] at ih ⊢
    by_cases hp : 0 < search_score query p
    · simp [hp, List.countP_cons, ih]
    · simp [hp, List.countP_cons, ih]

theorem map_fst_scoredOf_sublist (query : Str) (plugins : List PluginMetadata) :
    ((scoredOf query plugins).map Prod.fst).Sublist plugins := by
  induction plugins with
  | nil => simp [scoredOf]
  | cons p ps ih =>
    simp only [scoredOf, List.filterMap_cons] at ih ⊢
    by_cases hp : 0 < search_score query p
    · simp only [if_pos hp, List.map_cons]
      exact ih.cons₂ p
    · simp only [if_neg hp]
      exact ih.cons p

/-- C5: `search_plugins` returns at most `max_results` descriptors —
precisely `min max_results (number of descriptors scoring > 0)` of them;
every returned descriptor scores > 0; the output is ordered by
descending score; descriptors of equal score appear in catalog
(insertion) order — for every score value the equal-scored slice of the
output is a sublist of the catalog; when the positive scorers fit,
every one of them is returned; and when no descriptor scores above zero
the result is the empty list (the function is total: it never raises). -/
theorem search_plugins_spec (query : Str) (max_results : Nat)
    (plugins : List PluginMetadata) :
    (search_plugins query max_results plugins).length ≤ max_results ∧
    (search_plugins query max_results plugins).length
      = min max_results (plugins.countP (fun p => decide (0 < search_score query p))) ∧
    (∀ p ∈ search_plugins query max_results plugins, 0 < search_score query p) ∧
    (search_plugins query max_results plugins).Pairwise
      (fun a b => search_score query b ≤ search_score query a) ∧
    (∀ s : Nat, ((search_plugins query max_results plugins).filter
        (fun p => decide (search_score query p = s))).Sublist plugins) ∧
    (plugins.countP (fun p => decide (0 < search_score query p)) ≤ max_results →
      ∀ p ∈ plugins, 0 < search_score query p →
        p ∈ search_plugins query max_results plugins) ∧
    ((∀ p ∈ plugins, search_score query p = 0) →
      search_plugins query max_results plugins = []) := by
  have hperm := sortDescBy_perm (fun x : PluginMetadata × Nat => x.2)
    (scoredOf query plugins)
  have hmem_sorted : ∀ x ∈ sortDescBy (fun x : PluginMetadata × Nat => x.2)
      (scoredOf query plugins),
      x.1 ∈ plugins ∧ x.2 = search_score query x.1 ∧ 0 < x.2 :=
    fun x hx => mem_scoredOf query plugins x (hperm.mem_iff.mp hx)
  have hmem_take : ∀ x ∈ (sortDescBy (fun x : PluginMetadata × Nat => x.2)
      (scoredOf query plugins)).take max_results,
      x.1 ∈ plugins ∧ x.2 = search_score query x.1 ∧ 0 < x.2 :=
    fun x hx => hmem_sorted x ((List.take_sublist _ _).mem hx)
  refine ⟨?_, ?_, ?_, ?_, ?_, ?_, ?_⟩
  · rw [search_plugins_eq, List.length_map]
    exact List.length_take_le max_results _
  · rw [search_plugins_eq, List.length_map, List.length_take, hperm.length_eq,
      scoredOf_length]
  · intro p hp
    rw [search_plugins_eq] at hp
    obtain ⟨x, hx, rfl⟩ := List.mem_map.mp hp
    obtain ⟨-, hsc, hpos⟩ := hmem_take x hx
    omega
  · rw [search_plugins_eq, List.pairwise_map]
    have hpw : ((sortDescBy (fun x : PluginMetadata × Nat => x.2)
        (scoredOf query plugins)).take max_results).Pairwise
        (fun a b => b.2 ≤ a.2) :=
      (sortDescBy_pairwise _ _).sublist (List.take_sublist _ _)
    refine hpw.imp_of_mem ?_
    intro a b ha hb hab
    obtain ⟨-, hsa, -⟩ := hmem_take a ha
    obtain ⟨-, hsb, -⟩ := hmem_take b hb
    omega
  · intro s
    rw [search_plugins_eq, List.filter_map]
    have hcong : ((sortDescBy (fun x : PluginMetadata × Nat => x.2)
          (scoredOf query plugins)).take max_results).filter
          ((fun p => decide (search_score query p = s)) ∘ Prod.fst)
        = ((sortDescBy (fun x : PluginMetadata × Nat => x.2)
          (scoredOf query plugins)).take max_results).filter
          (fun x => decide (x.2 = s)) := by
      refine List.filter_congr ?_
      intro x hx
      obtain ⟨-, hsc, -⟩ := hmem_take x hx
      simp [Function.comp, hsc]
    rw [hcong]
    have h1 : (((sortDescBy (fun x : PluginMetadata × Nat => x.2)
          (scoredOf query plugins)).take max_results).filter
          (fun x => decide (x.2 = s))).Sublist
        ((sortDescBy (fun x : PluginMetadata × Nat => x.2)
          (scoredOf query plugins)).filter (fun x => decide (x.2 = s))) :=
      (List.take_sublist _ _).filter _
    rw [sortDescBy_filter_key (fun x : PluginMetadata × Nat => x.2)] at h1
    have h2 : (((scoredOf query plugins)).filter
        (fun x => decide (x.2 = s))).Sublist (scoredOf query plugins) :=
      List.filter_sublist _
    exact ((h1.trans h2).map Prod.fst).trans
      (map_fst_scoredOf_sublist query plugins)
  · intro hle p hp hpos
    rw [search_plugins_eq]
    have hlen : (sortDescBy (fun x : PluginMetadata × Nat => x.2)
        (scoredOf query plugins)).length ≤ max_results := by
      rw [hperm.length_eq, scoredOf_length]
      exact hle
    rw [List.take_of_length_le hlen]
    have : (p, search_score query p) ∈ sortDescBy
        (fun x : PluginMetadata × Nat => x.2) (scoredOf query plugins) :=
      hperm.mem_iff.mpr (scoredOf_mem_of_pos query plugins p hp hpos)
    exact List.mem_map_of_mem Prod.fst this
  · intro hzero
    have hnil : scoredOf query plugins = [] := by
      refine List.filterMap_eq_nil_iff.mpr ?_
      intro p hp
      simp [hzero p hp]
    rw [search_plugins_eq, hnil]
    simp [sortDescBy]

/-- C5 witness: against a catalog whose only descriptor scores 0 for
the query "qqq", the search returns the empty list. -/
theorem search_plugins_spec_witness :
    search_plugins ("qqq").toList 10 [dullPlugin] = [] :=
  (search_plugins_spec ("qqq").toList 10 [dullPlugin]).2.2.2.2.2.2 (by decide)

/-! ## C6: pattern synthesis -/

theorem wrapFrag_def (part : Str) :
    wrapFrag part =
      (if wild <:+ (if wild <+: part then part else wild ++ part)
       then (if wild <+: part then part else wild ++ part)
       else (if wild <+: part then part else wild ++ part) ++ wild) := rfl

theorem wild_prefix_pre (part : Str) :
    wild <+: (if wild <+: part then part else wild ++ part) := by
  by_cases h : wild <+: part
  · rw [if_pos h]; exact h
  · rw [if_neg h]; exact List.prefix_append wild part

theorem wild_prefix_wrapFrag (part : Str) : wild <+: wrapFrag part := by
  rw [wrapFrag_def]
  by_cases h : wild <:+ (if wild <+: part then part else wild ++ part)
  · rw [if_pos h]; exact wild_prefix_pre part
  · rw [if_neg h]
    exact (wild_prefix_pre part).trans (List.prefix_append _ wild)

theorem wild_suffix_wrapFrag (part : Str) : wild <:+ wrapFrag part := by
  rw [wrapFrag_def]
  by_cases h : wild <:+ (if wild <+: part then part else wild ++ part)
  · rw [if_pos h]; exact h
  · rw [if_neg h]; exact List.suffix_append _ wild

theorem mem_wrapFrag (c : Char) (part : Str) (h : c ∈ wrapFrag part) :
    c ∈ part ∨ c ∈ wild := by
  rw [wrapFrag_def] at h
  have hpre : ∀ x, x ∈ (if wild <+: part then part else wild ++ part) →
      x ∈ part ∨ x ∈ wild := by
    intro x hx
    by_cases hp : wild <+: part
    · rw [if_pos hp] at hx; exact Or.inl hx
    · rw [if_neg hp] at hx
      rcases List.mem_append.mp hx with hx | hx
      · exact Or.inr hx
      · exact Or.inl hx
  by_cases hs : wild <:+ (if wild <+: part then part else wild ++ part)
  · rw [if_pos hs] at h; exact hpre c h
  · rw [if_neg hs] at h
    rcases List.mem_append.mp h with h | h
    · exact hpre c h
    · exact Or.inr h

theorem pipe_not_mem_wrapFrag (part : Str) (h : '|' ∉ part) :
    '|' ∉ wrapFrag part := by
  intro hmem
  rcases mem_wrapFrag '|' part hmem with hc | hc
  · exact h hc
  · revert hc; decide

theorem wrapFrag_of_wrapped (part : Str) (h1 : wild <+: part) (h2 : wild <:+ part) :
    wrapFrag part = part := by
  rw [wrapFrag_def, if_pos h1, if_pos h2]

theorem mem_pyStrip (c : Char) (l : Str) (h : c ∈ pyStrip l) : c ∈ l := by
  unfold pyStrip at h
  rw [List.mem_reverse] at h
  have h2 := (List.dropWhile_sublist (l := (l.dropWhile isPySpace).reverse)
    (p := isPySpace)).mem h
  rw [List.mem_reverse] at h2
  exact (List.dropWhile_sublist (l := l) (p := isPySpace)).mem h2

theorem pyStrip_of_wrapped (l : Str) (h1 : wild <+: l) (h2 : wild <:+ l) :
    pyStrip l = l := by
  obtain ⟨t, ht⟩ := h1
  obtain ⟨s, hs⟩ := h2
  have hdrop : l.dropWhile isPySpace = l := by
    rw [← ht]
    rw [show wild ++ t = '.' :: ('*' :: t) from rfl]
    rw [List.dropWhile_cons]
    simp [isPySpace]
  have hrev : l.reverse.dropWhile isPySpace = l.reverse := by
    rw [← hs, List.reverse_append]
    rw [show (wild.reverse : Str) = '*' :: ['.'] from rfl]
    rw [show ('*' :: ['.']) ++ s.reverse = '*' :: ('.' :: s.reverse) from rfl]
    rw [List.dropWhile_cons]
    simp [isPySpace]
  unfold pyStrip
  rw [hdrop, hrev, List.reverse_reverse]

theorem pySplitCh_ne_nil (sep : Char) (l : Str) : pySplitCh sep l ≠ [] := by
  induction l with
  | nil => simp [pySplitCh]
  | cons c cs ih =>
    by_cases h : c = sep
    · simp [pySplitCh, h]
    · simp only [pySplitCh, if_neg h]
      cases hsplit : pySplitCh sep cs with
      | nil => simp
      | cons p ps => simp

theorem sep_not_mem_pySplitCh (sep : Char) (l : Str) :
    ∀ f ∈ pySplitCh sep l, sep ∉ f := by
  induction l with
  | nil =>
    intro f hf
    simp only [pySplitCh, List.mem_singleton] at hf
    subst hf
    simp
  | cons c cs ih =>
    intro f hf
    by_cases h : c = sep
    · simp only [pySplitCh, if_pos h, List.mem_cons] at hf
      rcases hf with rfl | hf
      · simp
      · exact ih f hf
    · simp only [pySplitCh, if_neg h] at hf
      cases hsplit : pySplitCh sep cs with
      | nil => exact absurd hsplit (pySplitCh_ne_nil sep cs)
      | cons p ps =>
        rw [hsplit] at hf
        simp only [List.mem_cons] at hf
        rcases hf with rfl | hf
        · intro hmem
          rcases List.mem_cons.mp hmem with hsc | hmem
          · exact h hsc.symm
          · exact ih p (by rw [hsplit]; exact List.mem_cons_self p ps) hmem
        · exact ih f (by rw [hsplit]; exact List.mem_cons_of_mem p hf)

theorem pySplitCh_of_not_mem (sep : Char) (l : Str) (h : sep ∉ l) :
    pySplitCh sep l = [l] := by
  induction l with
  | nil => rfl
  | cons c cs ih =>
    have hc : ¬ c = sep := by
      intro hcs
      exact h (hcs ▸ List.mem_cons_self c cs)
    have hcs : sep ∉ cs := fun hm => h (List.mem_cons_of_mem c hm)
    simp only [pySplitCh, if_neg hc, ih hcs]

theorem pySplitCh_append (sep : Char) (p rest : Str) (h : sep ∉ p) :
    pySplitCh sep (p ++ sep :: rest) = p :: pySplitCh sep rest := by
  induction p with
  | nil => simp [pySplitCh]
  | cons c p' ih =>
    have hc : ¬ c = sep := by
      intro hcs
      exact h (hcs ▸ List.mem_cons_self c p')
    have hp' : sep ∉ p' := fun hm => h (List.mem_cons_of_mem c hm)
    simp only [List.cons_append, pySplitCh, if_neg hc, List.append_eq, ih hp']

theorem pySplitCh_joinSep (sep : Char) (ps : List Str) (hne : ps ≠ [])
    (h : ∀ f ∈ ps, sep ∉ f) :
    pySplitCh sep (joinSep [sep] ps) = ps := by
  induction ps with
  | nil => exact absurd rfl hne
  | cons p ps' ih =>
    cases ps' with
    | nil =>
      simp only [joinSep]
      exact pySplitCh_of_not_mem sep p (h p (List.mem_cons_self p []))
    | cons q ps'' =>
      have hj : joinSep [sep] (p :: q :: ps'') = p ++ sep :: joinSep [sep] (q :: ps'') := by
        simp [joinSep]
      rw [hj, pySplitCh_append sep p _ (h p (List.mem_cons_self p _)),
        ih (by simp) (fun f hf => h f (List.mem_cons_of_mem p hf))]

theorem two_le_pySplitCh_length (sep : Char) (l : Str) (h : sep ∈ l) :
    2 ≤ (pySplitCh sep l).length := by
  induction l with
  | nil => cases h
  | cons c cs ih =>
    by_cases hc : c = sep
    · simp only [pySplitCh, if_pos hc, List.length_cons]
      have := pySplitCh_ne_nil sep cs
      have : 1 ≤ (pySplitCh sep cs).length := List.length_pos.mpr this
      omega
    · have hcs : sep ∈ cs := by
        rcases List.mem_cons.mp h with hsc | hcs
        · exact absurd hsc.symm hc
        · exact hcs
      simp only [pySplitCh, if_neg hc]
      cases hsplit : pySplitCh sep cs with
      | nil => exact absurd hsplit (pySplitCh_ne_nil sep cs)
      | cons p ps =>
        have := ih hcs
        rw [hsplit] at this
        simpa using this

theorem mem_joinSep_of_two_le (sep : Char) (ps : List Str) (h : 2 ≤ ps.length) :
    sep ∈ joinSep [sep] ps := by
  cases ps with
  | nil => simp at h
  | cons p ps' =>
    cases ps' with
    | nil => simp at h
    | cons q ps'' =>
      have hj : joinSep [sep] (p :: q :: ps'') = p ++ sep :: joinSep [sep] (q :: ps'') := by
        simp [joinSep]
      rw [hj]
      exact List.mem_append.mpr (Or.inr (List.mem_cons_self sep _))

theorem synthesize_of_mem (y : Str) (h : '|' ∈ y) :
    synthesize y =
      joinSep ['|'] ((pySplitCh '|' y).map (fun part => wrapFrag (pyStrip part))) := by
  simp only [synthesize, if_pos h]

theorem synthesize_of_not_mem (y : Str) (h : '|' ∉ y) :
    synthesize y = wrapFrag y := by
  simp only [synthesize, if_neg h]

/-- C6: pattern synthesis is idempotent — every fragment of
`synthesize x` already starts and ends with the wildcard marker `.*`
(second conjunct), so re-synthesizing the output (re-splitting on `|`,
stripping, and re-wrapping each fragment) returns it unchanged (first
conjunct). -/
theorem synthesize_idempotent (x : Str) :
    synthesize (synthesize x) = synthesize x ∧
    ∀ f ∈ pySplitCh '|' (synthesize x), wild <+: f ∧ wild <:+ f := by
  by_cases hp : '|' ∈ x
  · have hsx := synthesize_of_mem x hp
    have hlen : 2 ≤ ((pySplitCh '|' x).map (fun part => wrapFrag (pyStrip part))).length := by
      rw [List.length_map]
      exact two_le_pySplitCh_length '|' x hp
    have hnopipe : ∀ f ∈ (pySplitCh '|' x).map (fun part => wrapFrag (pyStrip part)),
        '|' ∉ f := by
      intro f hf
      obtain ⟨part, hpart, rfl⟩ := List.mem_map.mp hf
      refine pipe_not_mem_wrapFrag _ (fun hm => ?_)
      exact sep_not_mem_pySplitCh '|' x part hpart (mem_pyStrip '|' part hm)
    have hpipe_in : '|' ∈ synthesize x := by
      rw [hsx]
      exact mem_joinSep_of_two_le '|' _ hlen
    have hsplit : pySplitCh '|' (synthesize x) =
        (pySplitCh '|' x).map (fun part => wrapFrag (pyStrip part)) := by
      rw [hsx]
      exact pySplitCh_joinSep '|' _ (by intro hnil; rw [hnil] at hlen; simp at hlen)
        hnopipe
    have hfix : ∀ f ∈ (pySplitCh '|' x).map (fun part => wrapFrag (pyStrip part)),
        wrapFrag (pyStrip f) = f := by
      intro f hf
      obtain ⟨part, hpart, rfl⟩ := List.mem_map.mp hf
      rw [pyStrip_of_wrapped _ (wild_prefix_wrapFrag _) (wild_suffix_wrapFrag _)]
      exact wrapFrag_of_wrapped _ (wild_prefix_wrapFrag _) (wild_suffix_wrapFrag _)
    constructor
    · rw [synthesize_of_mem _ hpipe_in, hsplit, List.map_congr_left hfix, hsx]
      congr 1
      exact List.map_id' _
    · intro f hf
      rw [hsplit] at hf
      obtain ⟨part, hpart, rfl⟩ := List.mem_map.mp hf
      exact ⟨wild_prefix_wrapFrag _, wild_suffix_wrapFrag _⟩
  · have hsx := synthesize_of_not_mem x hp
    have hnp : '|' ∉ synthesize x := by
      rw [hsx]
      exact pipe_not_mem_wrapFrag x hp
    constructor
    · rw [synthesize_of_not_mem _ hnp, hsx]
      exact wrapFrag_of_wrapped (wrapFrag x) (wild_prefix_wrapFrag x)
        (wild_suffix_wrapFrag x)
    · intro f hf
      rw [hsx, pySplitCh_of_not_mem '|' _ (hsx ▸ hnp)] at hf
      rw [List.mem_singleton] at hf
      subst hf
      exact ⟨wild_prefix_wrapFrag x, wild_suffix_wrapFrag x⟩

/-! ## C1: query fallback ladders -/

/-- C1 counterexample: against a stub that always returns an empty
table, neither query tool issues 3 queries — in fact neither issues
any.  Both `search_measurements` and `query_job_data` look up
`SageDataService._parse_time_range`, an attribute the class defined in
`sage_mcp.py` does not have, so every invocation raises
`AttributeError` before rung 1, caught by the handler: 0 queries are
issued and an error string — not an empty result with
`fallbackLevelReached = 3` — is returned. -/
theorem ladder_exhaustion_zero_queries :
    (search_measurements_tool emptyOracle ("raingauge").toList none).queries.length
      = 0 ∧
    (query_job_data_tool emptyOracle ("raingauge").toList none
      ("upload").toList).queries.length = 0 ∧
    (search_measurements_tool emptyOracle ("raingauge").toList none).result
      = ToolResult.error ∧
    (query_job_data_tool emptyOracle ("raingauge").toList none
      ("upload").toList).result = ToolResult.error :=
  ⟨rfl, rfl, rfl, rfl⟩

/-- C1 amended: no 3-rung `resolve()` exists, and the two query tools
never reach their fallback ladders.  Against a stub that always returns
an empty table: (1) every `search_measurements` call and (2) every
`query_job_data` call issues 0 queries and returns an error string,
because the `SageDataService._parse_time_range` attribute lookup fails
before the first query; (3) the dead-code ladder inside
`search_measurements` has only 2 rungs — were the helper present it
would issue exactly the filters `{plugin: synthesized-pattern, vsn: *}`
and `{vsn: *, name: synthesized-pattern}`, in that order, ending empty
(the "no measurements" message); (4) the dead-code ladder inside
`query_job_data` likewise has only 2 rungs — the plugin rung, then the
length>2-word broadening rung (present whenever the job name has a word
longer than 2 characters), ending empty (the "no data found" message).
No `fallbackLevelReached` value exists anywhere. -/
theorem ladder_never_reached_two_rungs_dead (oracle : FieldFilter → List Obs)
    (h : ∀ f, oracle f = []) :
    (∀ pat node, search_measurements_tool oracle pat node
      = ⟨[], ToolResult.error⟩) ∧
    (∀ job node dt, query_job_data_tool oracle job node dt
      = ⟨[], ToolResult.error⟩) ∧
    (∀ pat,
      (search_measurements_plan oracle pat none).queries =
        [ [(("plugin").toList, synthesize pat), (("vsn").toList, ("*").toList)],
          [(("vsn").toList, ("*").toList), (("name").toList, synthesize pat)] ] ∧
      (search_measurements_plan oracle pat none).rows = []) ∧
    (∀ job dt, broaderPatterns job ≠ [] →
      (query_job_data_plan oracle job none dt).queries.length = 2 ∧
      (query_job_data_plan oracle job none dt).rows = []) := by
  refine ⟨fun pat node => rfl, fun job node dt => rfl, ?_, ?_⟩
  · intro pat
    simp only [search_measurements_plan, query_data_call, h, List.isEmpty_nil,
      if_true]
    exact ⟨rfl, trivial⟩
  · intro job dt hb
    have hbe : (broaderPatterns job).isEmpty = false := by
      cases hbp : broaderPatterns job with
      | nil => exact absurd hbp hb
      | cons a l => rfl
    simp only [query_job_data_plan, query_data_call, h, List.isEmpty_nil, if_true,
      hbe, Bool.false_eq_true, if_false]
    exact ⟨rfl, trivial⟩

/-- C1 witness: the concrete always-empty stub with the pattern/job
"cloud" (a word of length > 2). -/
theorem ladder_never_reached_witness :
    search_measurements_tool emptyOracle ("cloud").toList none
      = ⟨[], ToolResult.error⟩ ∧
    (search_measurements_plan emptyOracle ("cloud").toList none).queries =
      [ [(("plugin").toList, synthesize ("cloud").toList),
         (("vsn").toList, ("*").toList)],
        [(("vsn").toList, ("*").toList),
         (("name").toList, synthesize ("cloud").toList)] ] ∧
    (query_job_data_plan emptyOracle ("cloud").toList none
      ("upload").toList).queries.length = 2 :=
  ⟨(ladder_never_reached_two_rungs_dead emptyOracle (fun _ => rfl)).1
     ("cloud").toList none,
   ((ladder_never_reached_two_rungs_dead emptyOracle (fun _ => rfl)).2.2.1
     ("cloud").toList).1,
   ((ladder_never_reached_two_rungs_dead emptyOracle (fun _ => rfl)).2.2.2
     ("cloud").toList ("upload").toList (by decide)).1⟩

end SageMcp
